import Mathlib

/-!
Shallow embedding of the crowd-aware route-scoring engine of
`src/components/DynamicRoadRouting.jsx` (classes `DynamicPopulationGrid` and
`DynamicOSRMRouter`, plus the pure parts of the `DynamicRoadRouting`
component).  JavaScript numbers are modelled as exact rationals (`ℚ`); the
JS `Map` (which preserves insertion order, and on `set` of an existing key
updates the entry in place) is modelled as an insertion-ordered association
list.  The string grid key `"gridLat,gridLng"` is modelled as the pair of the
two quantized coordinates: distinct number pairs yield distinct strings, so
the pair is a faithful key.  `Math.sqrt(d) <= r` is embedded exactly as
`0 ≤ r ∧ d ≤ r * r` (valid because `d`, a sum of squares, is nonnegative).
-/

/-- A geographic point `[lat, lng]` (a two-element JS array in the source). -/
abbrev GeoPoint := ℚ × ℚ

/-- `this.gridSize = 0.0005` from the `DynamicPopulationGrid` constructor. -/
def gridSize : ℚ := 0.0005

/-- `getGridKey(lat, lng)`: quantizes each coordinate with
`Math.floor(coord / gridSize) * gridSize`; the source then joins the two
numbers into the string key, modelled here as the pair itself. -/
def getGridKey (lat lng : ℚ) : ℚ × ℚ :=
  (⌊lat / gridSize⌋ * gridSize, ⌊lng / gridSize⌋ * gridSize)

/-- Lookup in the insertion-ordered association list modelling `Map.get`. -/
def mapGet : List ((ℚ × ℚ) × ℚ) → (ℚ × ℚ) → Option ℚ
  | [], _ => none
  | e :: es, k => if e.1 = k then some e.2 else mapGet es k

/-- `Map.set`: updates an existing key in place, otherwise appends. -/
def mapSet : List ((ℚ × ℚ) × ℚ) → (ℚ × ℚ) → ℚ → List ((ℚ × ℚ) × ℚ)
  | [], k, v => [(k, v)]
  | e :: es, k, v => if e.1 = k then (k, v) :: es else e :: mapSet es k v

/-- A crowd zone as pushed by `updateCrowdZones`. -/
structure Zone where
  center : GeoPoint
  radius : ℚ
  population : ℚ
  weight : ℚ
deriving DecidableEq

/-- State of a `DynamicPopulationGrid` instance: the `populations` map and
the derived `crowdZones` array. -/
structure DynamicPopulationGrid where
  populations : List ((ℚ × ℚ) × ℚ)
  crowdZones : List Zone
deriving DecidableEq

/-- The state built by the `DynamicPopulationGrid` constructor. -/
def emptyGrid : DynamicPopulationGrid := ⟨[], []⟩

/-- `getPopulation(lat, lng)`: `this.populations.get(key) || 0`. -/
def getPopulation (g : DynamicPopulationGrid) (lat lng : ℚ) : ℚ :=
  (mapGet g.populations (getGridKey lat lng)).getD 0

/-- One element of the array returned by `getPopulatedAreas`. -/
structure Area where
  lat : ℚ
  lng : ℚ
  population : ℚ
deriving DecidableEq

/-- `getPopulatedAreas()`: iterates the map in insertion order and keeps
entries with `population > 0`; parsing the key string back into the two
numbers is the identity in this model. -/
def getPopulatedAreas (g : DynamicPopulationGrid) : List Area :=
  g.populations.filterMap fun e =>
    if 0 < e.2 then some ⟨e.1.1, e.1.2, e.2⟩ else none

/-- The population-to-weight step function inside `getRoutingWeight`. -/
def getRoutingWeightPop (population : ℚ) : ℚ :=
  if population = 0 then 1
  else if population < 3 then 2
  else if population < 6 then 5
  else if population < 10 then 10
  else 20

/-- `getRoutingWeight(lat, lng)`: the step function applied to the cell
population. -/
def getRoutingWeight (g : DynamicPopulationGrid) (lat lng : ℚ) : ℚ :=
  getRoutingWeightPop (getPopulation g lat lng)

/-- `updateCrowdZones()`: rebuilds `crowdZones` from `getPopulatedAreas()`,
keeping areas with `population >= 3`, with
`radius = Math.max(0.001, population * 0.0003)` and
`weight = this.getRoutingWeight(area.lat, area.lng)`. -/
def updateCrowdZones (g : DynamicPopulationGrid) : DynamicPopulationGrid :=
  { g with crowdZones :=
      (getPopulatedAreas g).filterMap fun a =>
        if 3 ≤ a.population then
          some ⟨(a.lat, a.lng), max 0.001 (a.population * 0.0003),
                a.population, getRoutingWeight g a.lat a.lng⟩
        else none }

/-- `addPerson(lat, lng, count)`: reads `get(key) || 0`, stores
`current + count`, recomputes the zones, and returns `current + count`
together with the mutated state. -/
def addPerson (g : DynamicPopulationGrid) (lat lng count : ℚ) :
    DynamicPopulationGrid × ℚ :=
  let key := getGridKey lat lng
  let current := (mapGet g.populations key).getD 0
  let g1 := { g with populations := mapSet g.populations key (current + count) }
  (updateCrowdZones g1, current + count)

/-- `clearAll()`: empties the map and the zone list. -/
def clearAll (_ : DynamicPopulationGrid) : DynamicPopulationGrid := ⟨[], []⟩

/-- `Math.sqrt((p0-c0)^2 + (p1-c1)^2) <= r`, embedded without the square
root: for a nonnegative radicand the comparison is equivalent to
`0 ≤ r ∧ (p0-c0)^2 + (p1-c1)^2 ≤ r^2`. -/
def pointWithin (p c : GeoPoint) (r : ℚ) : Bool :=
  decide (0 ≤ r) &&
    decide ((p.1 - c.1) * (p.1 - c.1) + (p.2 - c.2) * (p.2 - c.2) ≤ r * r)

/-- `isPointInCrowdZone(point)`: scans the zone list in order and returns
the first zone whose center is within `radius` of the point. -/
def isPointInCrowdZone (p : GeoPoint) : List Zone → Option Zone
  | [] => none
  | z :: zs =>
      if pointWithin p z.center z.radius then some z
      else isPointInCrowdZone p zs

/-- The coordinate-validation guard of `handleAddPerson` (and
`handleSelect`): rejects `lat < -90 || lat > 90 || lng < -180 || lng > 180`.
The `typeof`/`isNaN` checks of the source guard against non-numeric inputs,
which `ℚ` cannot represent. -/
def isValidCoord (lat lng : ℚ) : Bool :=
  !(decide (lat < -90) || decide (90 < lat) ||
    decide (lng < -180) || decide (180 < lng))

/-- `handleAddPerson(lat, lng)`: on invalid coordinates it logs
`Invalid coordinates` and returns early (modelled as `none`, the grid
untouched); otherwise it calls `addPerson(lat, lng)` with the default
`count = 1` and reports the new population. -/
def handleAddPerson (g : DynamicPopulationGrid) (lat lng : ℚ) :
    DynamicPopulationGrid × Option ℚ :=
  if isValidCoord lat lng then
    ((addPerson g lat lng 1).1, some (addPerson g lat lng 1).2)
  else (g, none)

/-- The `worstZone` record tracked inside `analyzeCrowdIntersections`;
`intersectionFrac` models the `intersectionRatio` field of the source. -/
structure WorstInfo where
  zone : Zone
  intersectionFrac : ℚ
  intersectionPoints : ℕ
deriving DecidableEq

/-- The record returned by `analyzeCrowdIntersections`. -/
structure IntersectionReport where
  totalIntersection : ℚ
  worstZone : Option WorstInfo
  averageIntersection : ℚ
deriving DecidableEq

/-- The inner loop of `analyzeCrowdIntersections`: the number of route
points within `zone.radius` of `zone.center`. -/
def countIntersections (route : List GeoPoint) (z : Zone) : ℕ :=
  (route.filter fun p => pointWithin p z.center z.radius).length

/-- One iteration of the outer loop of `analyzeCrowdIntersections`:
accumulates `intersectionRatio * zone.weight` into the running total and
keeps the zone with the strictly highest ratio seen so far (first one kept
on ties). -/
def analyzeStep (route : List GeoPoint) (acc : ℚ × Option WorstInfo)
    (z : Zone) : ℚ × Option WorstInfo :=
  let pts := countIntersections route z
  let frac := (pts : ℚ) / (route.length : ℚ)
  (acc.1 + frac * z.weight,
    match acc.2 with
    | none => some ⟨z, frac, pts⟩
    | some w =>
        if w.intersectionFrac < frac then some ⟨z, frac, pts⟩ else some w)

/-- `analyzeCrowdIntersections(route, crowdZones)`.  The source computes
`averageIntersection: totalIntersection / crowdZones.length || 0`; rational
division by zero is zero in Lean, which matches the `|| 0` fallback on the
empty zone list. -/
def analyzeCrowdIntersections (route : List GeoPoint)
    (crowdZones : List Zone) : IntersectionReport :=
  let r := crowdZones.foldl (analyzeStep route) (0, none)
  ⟨r.1, r.2, r.1 / (crowdZones.length : ℚ)⟩

/-- The `type` tag of a route option in `getMultipleRoutes`. -/
inductive RouteKind
  | direct
  | avoidance
  | alternative
deriving DecidableEq

/-- A route option as assembled by `getMultipleRoutes` and consumed by the
`bestRoute` selection in `calculateRoute`. -/
structure RouteCandidate where
  route : List GeoPoint
  kind : RouteKind
  crowdIntersections : IntersectionReport
deriving DecidableEq

/-- The `bestRoute` computation of `calculateRoute`:
`routes.reduce((best, current) => current...totalIntersection <
best...totalIntersection ? current : best)`, run only when
`routes.length > 0` (JS `reduce` on an empty array would throw; the guard
makes the empty case an explicit absence, modelled as `none`). -/
def selectBest (routes : List RouteCandidate) : Option RouteCandidate :=
  match routes with
  | [] => none
  | r :: rs =>
      some (rs.foldl (fun best current =>
        if current.crowdIntersections.totalIntersection <
            best.crowdIntersections.totalIntersection then current
        else best) r)

/-- The two branches of `calculateRoute` after fetching candidates: with a
nonempty list the best route is displayed; with an empty list the UI state
becomes the empty route with `routeInfo = null` (no statistics). -/
def calculateRouteSelection (routes : List RouteCandidate) :
    List GeoPoint × Option RouteCandidate :=
  match selectBest routes with
  | some b => (b.route, some b)
  | none => ([], none)

/-- The worst-zone computation of `getAvoidanceRoute`:
`crowdZones.reduce((worst, current) => current.weight > worst.weight ?
current : worst)`, guarded by `crowdZones.length > 0` in
`getMultipleRoutes` (modelled as `none` on the empty list). -/
def worstZoneOf (crowdZones : List Zone) : Option Zone :=
  match crowdZones with
  | [] => none
  | z :: zs =>
      some (zs.foldl (fun worst current =>
        if worst.weight < current.weight then current else worst) z)

/-- The squared length of the direct start-to-end vector, the radicand of
`Math.sqrt(dx * dx + dy * dy)` in `createAvoidanceWaypoints`. -/
def dirLenSq (start endp : GeoPoint) : ℚ :=
  (endp.1 - start.1) * (endp.1 - start.1) +
    (endp.2 - start.2) * (endp.2 - start.2)

/-- `createAvoidanceWaypoints(start, end, crowdZone)`.  `Math.sqrt` is
abstracted as the function parameter `sq`; theorems about this definition
carry hypotheses pinning `sq` to square-root behaviour on the one value it
is applied to. -/
def createAvoidanceWaypoints (sq : ℚ → ℚ) (start endp : GeoPoint)
    (crowdZone : Zone) : List GeoPoint :=
  let dx := endp.1 - start.1
  let dy := endp.2 - start.2
  let length := sq (dx * dx + dy * dy)
  if length = 0 then []
  else
    let perpX := -dy / length
    let perpY := dx / length
    [0.002, 0.004, 0.006].map fun d =>
      (crowdZone.center.1 + perpX * d, crowdZone.center.2 + perpY * d)

/-- The perpendicular direction `(perpX, perpY)` computed inside
`createAvoidanceWaypoints`. -/
def perpUnit (sq : ℚ → ℚ) (start endp : GeoPoint) : GeoPoint :=
  (-(endp.2 - start.2) / sq (dirLenSq start endp),
    (endp.1 - start.1) / sq (dirLenSq start endp))

/-- The `[lng, lat]` conversion applied to `start`, waypoints and `end`
when building the provider request URL in `getRoadRoute`,
`getAvoidanceRoute` and `getAlternativeRoute`. -/
def toProviderCoords (route : List GeoPoint) : List GeoPoint :=
  route.map fun p => (p.2, p.1)

/-- The `coord => [coord[1], coord[0]]` conversion applied to the
provider's `geometry.coordinates` in the same three methods. -/
def fromProviderCoords (coords : List GeoPoint) : List GeoPoint :=
  coords.map fun c => (c.2, c.1)

/-- A mutation of the grid: an `addPerson` call or a `clearAll` call. -/
inductive GridOp
  | add (lat lng count : ℚ)
  | clear

/-- Applies one mutation to the grid state. -/
def applyGridOp (g : DynamicPopulationGrid) : GridOp → DynamicPopulationGrid
  | .add lat lng count => (addPerson g lat lng count).1
  | .clear => clearAll g

/-- Applies a sequence of mutations to the grid state. -/
def runGridOps (g : DynamicPopulationGrid) (ops : List GridOp) :
    DynamicPopulationGrid :=
  ops.foldl applyGridOp g

/-- Applies a sequence of `addPerson(lat, lng, count)` calls. -/
def runAdds (g : DynamicPopulationGrid) (calls : List (ℚ × ℚ × ℚ)) :
    DynamicPopulationGrid :=
  calls.foldl (fun h t => (addPerson h t.1 t.2.1 t.2.2).1) g

/-- Specification-side description of a cell population: the sum of the
counts of all calls that quantize to the same grid cell as `(lat, lng)`. -/
def specCellSum (calls : List (ℚ × ℚ × ℚ)) (lat lng : ℚ) : ℚ :=
  ((calls.filter fun t =>
      decide (getGridKey t.1 t.2.1 = getGridKey lat lng)).map
    fun t => t.2.2).sum

/-- Specification-side description of the zone list: one zone per cell with
population at least 3, centered at the cell's quantized coordinates, with
radius `max(0.001, population * 0.0003)` and the step-function weight of
the cell's population. -/
def specZonesOfCells (cells : List ((ℚ × ℚ) × ℚ)) : List Zone :=
  cells.filterMap fun e =>
    if 3 ≤ e.2 then
      some ⟨e.1, max 0.001 (e.2 * 0.0003), e.2, getRoutingWeightPop e.2⟩
    else none

/-- Specification-side total intersection: the sum over zones of the
in-zone point count divided by the route length, times the zone weight. -/
def specTotalIntersection (route : List GeoPoint) (zones : List Zone) : ℚ :=
  (zones.map fun z =>
    ((countIntersections route z : ℚ) / (route.length : ℚ)) * z.weight).sum

theorem mapGet_mapSet (m : List ((ℚ × ℚ) × ℚ)) (k : ℚ × ℚ) (v : ℚ)
    (k1 : ℚ × ℚ) :
    mapGet (mapSet m k v) k1 = if k1 = k then some v else mapGet m k1 := by
  induction m with
  | nil =>
      by_cases h : k1 = k
      · simp [mapSet, mapGet, h]
      · have h2 : ¬ k = k1 := fun he => h he.symm
        simp [mapSet, mapGet, h, h2]
  | cons e es ih =>
      by_cases he : e.1 = k
      · by_cases h1 : k1 = k
        · simp [mapSet, mapGet, he, h1]
        · have h2 : ¬ k = k1 := fun hk => h1 hk.symm
          have h3 : ¬ e.1 = k1 := fun hk => h2 (he ▸ hk)
          simp [mapSet, mapGet, he, h1, h2, h3]
      · by_cases h1 : e.1 = k1
        · have h2 : ¬ k1 = k := fun hk => he (h1.trans hk)
          simp [mapSet, mapGet, he, h1, h2]
        · simp [mapSet, mapGet, he, h1, ih]

theorem populations_updateCrowdZones (g : DynamicPopulationGrid) :
    (updateCrowdZones g).populations = g.populations := rfl

theorem populations_addPerson (g : DynamicPopulationGrid)
    (lat lng count : ℚ) :
    (addPerson g lat lng count).1.populations =
      mapSet g.populations (getGridKey lat lng)
        ((mapGet g.populations (getGridKey lat lng)).getD 0 + count) := rfl

theorem getPopulation_addPerson (g : DynamicPopulationGrid)
    (lat lng count lat1 lng1 : ℚ) :
    getPopulation (addPerson g lat lng count).1 lat1 lng1 =
      getPopulation g lat1 lng1 +
        if getGridKey lat1 lng1 = getGridKey lat lng then count else 0 := by
  unfold getPopulation
  rw [populations_addPerson, mapGet_mapSet]
  by_cases h : getGridKey lat1 lng1 = getGridKey lat lng
  · simp [h]
  · simp [h]

theorem getPopulation_runAdds (calls : List (ℚ × ℚ × ℚ)) :
    ∀ (g : DynamicPopulationGrid) (lat lng : ℚ),
      getPopulation (runAdds g calls) lat lng =
        getPopulation g lat lng + specCellSum calls lat lng := by
  induction calls with
  | nil => intro g lat lng; simp [runAdds, specCellSum]
  | cons c cs ih =>
      intro g lat lng
      have hstep : runAdds g (c :: cs) = runAdds (addPerson g c.1 c.2.1 c.2.2).1 cs := by
        simp [runAdds]
      rw [hstep, ih, getPopulation_addPerson]
      by_cases h : getGridKey lat lng = getGridKey c.1 c.2.1
      · simp [specCellSum, h.symm, List.filter_cons]
        ring
      · have h1 : ¬ getGridKey c.1 c.2.1 = getGridKey lat lng := fun he => h he.symm
        simp [specCellSum, h, h1, List.filter_cons]

theorem gridSize_ne_zero : gridSize ≠ 0 := by norm_num [gridSize]

/-- Quantization is idempotent: the grid key of a cell's own quantized
coordinates is that cell's key. -/
theorem getGridKey_idem (lat lng : ℚ) :
    getGridKey (getGridKey lat lng).1 (getGridKey lat lng).2 =
      getGridKey lat lng := by
  unfold getGridKey
  have h1 : (↑⌊lat / gridSize⌋ * gridSize) / gridSize = (⌊lat / gridSize⌋ : ℚ) :=
    mul_div_cancel_right₀ _ gridSize_ne_zero
  have h2 : (↑⌊lng / gridSize⌋ * gridSize) / gridSize = (⌊lng / gridSize⌋ : ℚ) :=
    mul_div_cancel_right₀ _ gridSize_ne_zero
  simp [h1, h2, Int.floor_intCast]

/-- Well-formedness of the populations map of every reachable grid state:
keys are pairwise distinct and each key is fixed under re-quantization. -/
def WFmap (m : List ((ℚ × ℚ) × ℚ)) : Prop :=
  (m.map Prod.fst).Nodup ∧ ∀ e ∈ m, getGridKey e.1.1 e.1.2 = e.1

theorem mapGet_of_mem (m : List ((ℚ × ℚ) × ℚ)) (hnd : (m.map Prod.fst).Nodup)
    (k : ℚ × ℚ) (v : ℚ) (hmem : (k, v) ∈ m) : mapGet m k = some v := by
  induction m with
  | nil => simp at hmem
  | cons e es ih =>
      rcases List.mem_cons.1 hmem with he | he
      · simp [mapGet, ← he]
      · have hk : k ∈ es.map Prod.fst := by
          exact List.mem_map.2 ⟨(k, v), he, rfl⟩
        have hne : ¬ e.1 = k := by
          intro hek
          have := (List.nodup_cons.1 hnd).1
          exact this (hek ▸ hk)
        simp only [mapGet, hne, if_false]
        exact ih (List.nodup_cons.1 hnd).2 he

theorem keys_mapSet (m : List ((ℚ × ℚ) × ℚ)) (k : ℚ × ℚ) (v : ℚ) :
    (mapSet m k v).map Prod.fst =
      if k ∈ m.map Prod.fst then m.map Prod.fst
      else m.map Prod.fst ++ [k] := by
  induction m with
  | nil => simp [mapSet]
  | cons e es ih =>
      by_cases he : e.1 = k
      · simp [mapSet, he]
      · have hne : ¬ k = e.1 := fun hk => he hk.symm
        by_cases hk : k ∈ es.map Prod.fst <;>
          simp [mapSet, he, hne, hk, ih]

theorem WFmap_mapSet (m : List ((ℚ × ℚ) × ℚ)) (lat lng v : ℚ)
    (h : WFmap m) : WFmap (mapSet m (getGridKey lat lng) v) := by
  obtain ⟨hnd, hfix⟩ := h
  constructor
  · rw [keys_mapSet]
    by_cases hk : getGridKey lat lng ∈ m.map Prod.fst
    · simp [hk, hnd]
    · simp only [hk, if_false]
      refine List.Nodup.append hnd (List.nodup_singleton _) ?_
      intro a ha hak
      have hakk : a = getGridKey lat lng := List.mem_singleton.1 hak
      exact hk (hakk ▸ ha)
  · intro e he
    induction m with
    | nil =>
        simp [mapSet] at he
        rw [he]
        exact getGridKey_idem lat lng
    | cons f fs ih =>
        by_cases hf : f.1 = getGridKey lat lng
        · simp only [mapSet, hf, if_true] at he
          rcases List.mem_cons.1 he with he1 | he1
          · rw [he1]; exact getGridKey_idem lat lng
          · exact hfix e (List.mem_cons_of_mem f he1)
        · simp only [mapSet, hf, if_false] at he
          rcases List.mem_cons.1 he with he1 | he1
          · exact hfix e (he1 ▸ List.mem_cons_self f fs)
          · exact ih (List.Nodup.of_cons hnd)
              (fun x hx => hfix x (List.mem_cons_of_mem f hx)) he1

/-- On a well-formed map, looking up the population at an entry's own
coordinates returns that entry's count. -/
theorem getPopulation_of_mem (g : DynamicPopulationGrid)
    (h : WFmap g.populations) (e : (ℚ × ℚ) × ℚ) (he : e ∈ g.populations) :
    getPopulation g e.1.1 e.1.2 = e.2 := by
  obtain ⟨hnd, hfix⟩ := h
  unfold getPopulation
  rw [hfix e he]
  rw [mapGet_of_mem g.populations hnd e.1 e.2 (by simpa using he)]
  rfl

/-- On a well-formed map, `updateCrowdZones` produces exactly the
specification-side zone list. -/
theorem updateCrowdZones_eq_spec (g : DynamicPopulationGrid)
    (h : WFmap g.populations) :
    (updateCrowdZones g).crowdZones = specZonesOfCells g.populations := by
  have hw : ∀ e ∈ g.populations,
      getRoutingWeight g e.1.1 e.1.2 = getRoutingWeightPop e.2 := by
    intro e he
    unfold getRoutingWeight
    rw [getPopulation_of_mem g h e he]
  show (getPopulatedAreas g).filterMap _ = specZonesOfCells g.populations
  unfold getPopulatedAreas specZonesOfCells
  generalize hl : g.populations = l at hw ⊢
  clear hl h
  induction l with
  | nil => simp
  | cons e es ih =>
      have hwe := hw e (List.mem_cons_self e es)
      have hwes : ∀ x ∈ es, getRoutingWeight g x.1.1 x.1.2 =
          getRoutingWeightPop x.2 :=
        fun x hx => hw x (List.mem_cons_of_mem e hx)
      by_cases hpos : 0 < e.2
      · by_cases h3 : 3 ≤ e.2
        · simp [List.filterMap_cons, hpos, h3, hwe, ih hwes]
        · simp [List.filterMap_cons, hpos, h3, ih hwes]
      · have h3 : ¬ 3 ≤ e.2 := fun hc => hpos (lt_of_lt_of_le (by norm_num) hc)
        simp [List.filterMap_cons, hpos, h3, ih hwes]

/-- The reachable-state invariant of claim C4. -/
def GridInv (g : DynamicPopulationGrid) : Prop :=
  WFmap g.populations ∧ g.crowdZones = specZonesOfCells g.populations

theorem gridInv_empty : GridInv emptyGrid := by
  refine ⟨⟨by simp [emptyGrid], by simp [emptyGrid]⟩, by simp [emptyGrid, specZonesOfCells]⟩

theorem addPerson_fst (g : DynamicPopulationGrid) (lat lng count : ℚ) :
    (addPerson g lat lng count).1 =
      updateCrowdZones
        { g with populations := (mapSet g.populations (getGridKey lat lng)
            ((mapGet g.populations (getGridKey lat lng)).getD 0 + count)) } :=
  rfl

theorem gridInv_applyGridOp (g : DynamicPopulationGrid) (op : GridOp)
    (h : GridInv g) : GridInv (applyGridOp g op) := by
  cases op with
  | add lat lng count =>
      have hwf : WFmap (mapSet g.populations (getGridKey lat lng)
          ((mapGet g.populations (getGridKey lat lng)).getD 0 + count)) :=
        WFmap_mapSet _ lat lng _ h.1
      constructor
      · show WFmap (addPerson g lat lng count).1.populations
        rw [populations_addPerson]
        exact hwf
      · show (addPerson g lat lng count).1.crowdZones =
          specZonesOfCells (addPerson g lat lng count).1.populations
        rw [addPerson_fst]
        exact updateCrowdZones_eq_spec _ hwf
  | clear =>
      exact ⟨⟨by simp [applyGridOp, clearAll], by simp [applyGridOp, clearAll]⟩,
        by simp [applyGridOp, clearAll, specZonesOfCells]⟩

theorem gridInv_runGridOps (ops : List GridOp) :
    ∀ g : DynamicPopulationGrid, GridInv g → GridInv (runGridOps g ops) := by
  induction ops with
  | nil => intro g h; exact h
  | cons op ops ih =>
      intro g h
      exact ih (applyGridOp g op) (gridInv_applyGridOp g op h)

theorem countIntersections_eq_zero_iff (route : List GeoPoint) (z : Zone) :
    countIntersections route z = 0 ↔
      ∀ p ∈ route, pointWithin p z.center z.radius = false := by
  rw [countIntersections, List.length_eq_zero, List.filter_eq_nil_iff]
  simp

theorem foldl_analyzeStep_fst (route : List GeoPoint) :
    ∀ (zones : List Zone) (t : ℚ) (w : Option WorstInfo),
      (zones.foldl (analyzeStep route) (t, w)).1 =
        t + specTotalIntersection route zones := by
  intro zones
  induction zones with
  | nil => intro t w; simp [specTotalIntersection]
  | cons z zs ih =>
      intro t w
      rw [List.foldl_cons]
      rcases hstep : analyzeStep route (t, w) z with ⟨t1, w1⟩
      have ht1 : t1 =
          t + ((countIntersections route z : ℚ) / (route.length : ℚ)) * z.weight := by
        have h1 := congrArg Prod.fst hstep
        simpa [analyzeStep] using h1.symm
      rw [ih t1 w1, ht1, specTotalIntersection, specTotalIntersection]
      simp only [List.map_cons, List.sum_cons]
      ring

theorem foldl_analyzeStep_isSome (route : List GeoPoint) :
    ∀ (zones : List Zone) (acc : ℚ × Option WorstInfo), acc.2.isSome →
      ((zones.foldl (analyzeStep route) acc).2).isSome := by
  intro zones
  induction zones with
  | nil => intro acc h; simpa using h
  | cons z zs ih =>
      intro acc h
      rw [List.foldl_cons]
      apply ih
      rcases acc with ⟨t, w⟩
      rcases w with _ | w
      · simp at h
      · simp only [analyzeStep]
        split <;> simp

theorem foldl_analyzeStep_nomatch (route : List GeoPoint) :
    ∀ (zones : List Zone) (t : ℚ) (w0 : WorstInfo),
      w0.intersectionFrac = 0 →
      (∀ z ∈ zones, countIntersections route z = 0) →
      (zones.foldl (analyzeStep route) (t, some w0)).2 = some w0 := by
  intro zones
  induction zones with
  | nil => intro t w0 _ _; simp
  | cons z zs ih =>
      intro t w0 h0 hz
      rw [List.foldl_cons]
      have hcz : countIntersections route z = 0 := hz z (List.mem_cons_self z zs)
      have hstep : analyzeStep route (t, some w0) z = (t + 0 * z.weight, some w0) := by
        simp [analyzeStep, hcz, h0]
      rw [hstep]
      exact ih _ _ h0 fun x hx => hz x (List.mem_cons_of_mem z hx)

theorem analyzeCrowdIntersections_total (route : List GeoPoint)
    (zones : List Zone) :
    (analyzeCrowdIntersections route zones).totalIntersection =
      specTotalIntersection route zones := by
  show (zones.foldl (analyzeStep route) (0, none)).1 = _
  rw [foldl_analyzeStep_fst]
  ring

theorem analyzeCrowdIntersections_avg (route : List GeoPoint)
    (zones : List Zone) :
    (analyzeCrowdIntersections route zones).averageIntersection =
      specTotalIntersection route zones / (zones.length : ℚ) := by
  show (zones.foldl (analyzeStep route) (0, none)).1 / (zones.length : ℚ) = _
  rw [foldl_analyzeStep_fst]
  ring_nf

theorem analyzeCrowdIntersections_worst_none_iff (route : List GeoPoint)
    (zones : List Zone) :
    (analyzeCrowdIntersections route zones).worstZone = none ↔ zones = [] := by
  constructor
  · intro h
    cases zones with
    | nil => rfl
    | cons z zs =>
        exfalso
        have hsome : ((analyzeCrowdIntersections route (z :: zs)).worstZone).isSome := by
          show (((z :: zs).foldl (analyzeStep route) (0, none)).2).isSome
          rw [List.foldl_cons]
          apply foldl_analyzeStep_isSome
          simp [analyzeStep]
        rw [h] at hsome
        simp at hsome
  · intro h
    subst h
    rfl

/-- The shape shared by the two JS `reduce` scans: keep the accumulator
unless the current element is strictly smaller under a rational key. -/
def pickBy {α : Type} (k : α → ℚ) (best current : α) : α :=
  if k current < k best then current else best

theorem foldl_pickBy_spec {α : Type} (k : α → ℚ) :
    ∀ (xs : List α) (x : α), ∃ l1 l2,
      x :: xs = l1 ++ (xs.foldl (pickBy k) x) :: l2 ∧
        (∀ z ∈ l1, k (xs.foldl (pickBy k) x) < k z) ∧
        (∀ z ∈ l2, k (xs.foldl (pickBy k) x) ≤ k z) := by
  intro xs
  induction xs with
  | nil =>
      intro x
      exact ⟨[], [], by simp, by simp, by simp⟩
  | cons y ys ih =>
      intro x
      by_cases h : k y < k x
      · have hpick : pickBy k x y = y := by simp [pickBy, h]
        obtain ⟨l1, l2, hdec, hl1, hl2⟩ := ih y
        have hfold : (y :: ys).foldl (pickBy k) x = ys.foldl (pickBy k) y := by
          simp [List.foldl, hpick]
        refine ⟨x :: l1, l2, ?_, ?_, ?_⟩
        · rw [hfold]; simpa using hdec
        · intro z hz
          rw [hfold]
          rcases List.mem_cons.1 hz with hz | hz
          · subst hz
            have hby : k (ys.foldl (pickBy k) y) ≤ k y := by
              cases l1 with
              | nil =>
                  have : y = ys.foldl (pickBy k) y := by
                    have := hdec
                    simp at this
                    exact this.1
                  exact le_of_eq (congrArg k this.symm)
              | cons w l1t =>
                  have hyw : y = w := by
                    have := hdec
                    simp at this
                    exact this.1
                  have : k (ys.foldl (pickBy k) y) < k w :=
                    hl1 w (by simp)
                  exact le_of_lt (hyw ▸ this)
            exact lt_of_le_of_lt hby h
          · exact hl1 z hz
        · intro z hz; rw [hfold]; exact hl2 z hz
      · have hpick : pickBy k x y = x := by simp [pickBy, h]
        obtain ⟨l1, l2, hdec, hl1, hl2⟩ := ih x
        have hfold : (y :: ys).foldl (pickBy k) x = ys.foldl (pickBy k) x := by
          simp [List.foldl, hpick]
        have hxy : k x ≤ k y := le_of_not_lt h
        cases l1 with
        | nil =>
            have hbx : x = ys.foldl (pickBy k) x := by
              have := hdec; simp at this; exact this.1
            have hys : ys = l2 := by
              have := hdec; simp at this; exact this.2
            refine ⟨[], y :: ys, ?_, by simp, ?_⟩
            · rw [hfold]; simp [← hbx]
            · intro z hz
              rw [hfold]
              rcases List.mem_cons.1 hz with hz | hz
              · subst hz
                exact le_trans (le_of_eq (congrArg k hbx.symm)) hxy
              · exact hl2 z (hys ▸ hz)
        | cons w l1t =>
            have hxw : x = w := by
              have := hdec; simp at this; exact this.1
            have hys : ys = l1t ++ ys.foldl (pickBy k) x :: l2 := by
              have := hdec; simp at this; exact this.2
            refine ⟨x :: y :: l1t, l2, ?_, ?_, ?_⟩
            · rw [hfold]
              simpa using hys
            · intro z hz
              rw [hfold]
              rcases List.mem_cons.1 hz with hz | hz
              · subst hz
                exact hl1 w (by simp) |>.trans_le (le_of_eq (congrArg k hxw.symm))
              · rcases List.mem_cons.1 hz with hz | hz
                · subst hz
                  exact lt_of_lt_of_le
                    ((hl1 w (by simp)).trans_le
                      ((le_of_eq (congrArg k hxw.symm)).trans hxy)) le_rfl
                · exact hl1 z (by simp [hz])
            · intro z hz
              rw [hfold]
              exact hl2 z hz

theorem getGridKey_zero : getGridKey 0 0 = (0, 0) := by
  norm_num [getGridKey, gridSize]

/-- C1 counterexample: `addPerson` performs no count validation.  Calling
it with the non-positive count `-1` is not rejected: it mutates the grid
(the target cell ends at population `-1`) and returns `-1`, contradicting
the claim that non-positive counts are rejected with `InvalidArgument` and
that only positive counts change the target cell. -/
theorem addPerson_negative_count_not_rejected :
    (addPerson emptyGrid 0 0 (-1)).1.populations ≠ emptyGrid.populations ∧
      (addPerson emptyGrid 0 0 (-1)).2 = -1 ∧
      getPopulation (addPerson emptyGrid 0 0 (-1)).1 0 0 = -1 := by
  refine ⟨?_, ?_, ?_⟩
  · rw [populations_addPerson, getGridKey_zero]
    simp [emptyGrid, mapGet, mapSet]
  · simp [addPerson, emptyGrid, mapGet]
  · rw [getPopulation_addPerson]
    simp [getPopulation, emptyGrid, mapGet]

/-- C1 (amended): the coordinate validation lives in the caller
`handleAddPerson`: latitude outside `[-90, 90]` or longitude outside
`[-180, 180]` is rejected (invalid-coordinate log, modelled as `none`)
with the grid unchanged, and valid coordinates increment the target cell
by the fixed count 1; the grid's `addPerson` itself validates nothing and
adds any count, including non-positive ones, to the target cell. -/
theorem handleAddPerson_validation :
    (∀ (g : DynamicPopulationGrid) (lat lng : ℚ),
        isValidCoord lat lng = false → handleAddPerson g lat lng = (g, none)) ∧
    (∀ (g : DynamicPopulationGrid) (lat lng : ℚ),
        isValidCoord lat lng = true →
          handleAddPerson g lat lng =
            ((addPerson g lat lng 1).1, some (addPerson g lat lng 1).2)) ∧
    (∀ (g : DynamicPopulationGrid) (lat lng count : ℚ),
        getPopulation (addPerson g lat lng count).1 lat lng =
          getPopulation g lat lng + count) := by
  refine ⟨?_, ?_, ?_⟩
  · intro g lat lng h
    simp [handleAddPerson, h]
  · intro g lat lng h
    simp [handleAddPerson, h]
  · intro g lat lng count
    rw [getPopulation_addPerson]
    simp

/-- C1 witness: both branches of the amended claim at concrete inputs. -/
theorem handleAddPerson_validation_witness :
    isValidCoord 91 0 = false ∧
      handleAddPerson emptyGrid 91 0 = (emptyGrid, none) ∧
      isValidCoord 1 1 = true ∧
      handleAddPerson emptyGrid 1 1 =
        ((addPerson emptyGrid 1 1 1).1, some (addPerson emptyGrid 1 1 1).2) :=
  ⟨by norm_num [isValidCoord],
    handleAddPerson_validation.1 emptyGrid 91 0 (by norm_num [isValidCoord]),
    by norm_num [isValidCoord],
    handleAddPerson_validation.2.1 emptyGrid 1 1 (by norm_num [isValidCoord])⟩

/-- C2: starting from the empty grid, for any sequence of `addPerson`
calls and any valid coordinates, `getPopulation` returns the sum of the
counts of exactly those calls whose coordinates quantize to the same grid
cell; a cell no call ever touched reads 0; and `addPerson` returns the new
population of the target cell. -/
theorem getPopulation_accumulates :
    (∀ (calls : List (ℚ × ℚ × ℚ)) (lat lng : ℚ),
        isValidCoord lat lng = true →
          getPopulation (runAdds emptyGrid calls) lat lng =
              specCellSum calls lat lng ∧
            ((∀ t ∈ calls, getGridKey t.1 t.2.1 ≠ getGridKey lat lng) →
              getPopulation (runAdds emptyGrid calls) lat lng = 0)) ∧
    (∀ (g : DynamicPopulationGrid) (lat lng count : ℚ),
        (addPerson g lat lng count).2 =
          getPopulation (addPerson g lat lng count).1 lat lng) := by
  constructor
  · intro calls lat lng _
    have hmain : getPopulation (runAdds emptyGrid calls) lat lng =
        specCellSum calls lat lng := by
      rw [getPopulation_runAdds]
      simp [getPopulation, emptyGrid, mapGet]
    refine ⟨hmain, ?_⟩
    intro hnone
    rw [hmain]
    unfold specCellSum
    have hfil : calls.filter
        (fun t => decide (getGridKey t.1 t.2.1 = getGridKey lat lng)) = [] := by
      rw [List.filter_eq_nil_iff]
      intro t ht
      simpa using hnone t ht
    rw [hfil]
    simp
  · intro g lat lng count
    rw [getPopulation_addPerson]
    simp
    rfl

/-- C2 witness: two calls landing in the same cell accumulate. -/
theorem getPopulation_accumulates_witness :
    isValidCoord 1 1 = true ∧
      getPopulation (runAdds emptyGrid [(1, 1, 2), (1, 1, 3)]) 1 1 =
        specCellSum [(1, 1, 2), (1, 1, 3)] 1 1 :=
  ⟨by norm_num [isValidCoord],
    (getPopulation_accumulates.1 [(1, 1, 2), (1, 1, 3)] 1 1
      (by norm_num [isValidCoord])).1⟩

/-- C3: `getRoutingWeight` is the population step function with exactly
the claimed breakpoints (0 to 1, 1 and 2 to 2, 3 to 5 to 5, 6 to 9 to 10,
at least 10 to 20), and it is monotone non-decreasing on nonnegative
populations. -/
theorem getRoutingWeight_step :
    (∀ (g : DynamicPopulationGrid) (lat lng : ℚ),
        getRoutingWeight g lat lng =
          getRoutingWeightPop (getPopulation g lat lng)) ∧
    getRoutingWeightPop 0 = 1 ∧
    (∀ p : ℚ, 1 ≤ p → p ≤ 2 → getRoutingWeightPop p = 2) ∧
    (∀ p : ℚ, 3 ≤ p → p ≤ 5 → getRoutingWeightPop p = 5) ∧
    (∀ p : ℚ, 6 ≤ p → p ≤ 9 → getRoutingWeightPop p = 10) ∧
    (∀ p : ℚ, 10 ≤ p → getRoutingWeightPop p = 20) ∧
    (∀ p q : ℚ, 0 ≤ p → p ≤ q →
        getRoutingWeightPop p ≤ getRoutingWeightPop q) := by
  refine ⟨fun g lat lng => rfl, by norm_num [getRoutingWeightPop],
    ?_, ?_, ?_, ?_, ?_⟩
  · intro p h1 h2
    rw [getRoutingWeightPop,
      if_neg (show (0:ℚ) < p by linarith).ne', if_pos (by linarith)]
  · intro p h1 h2
    rw [getRoutingWeightPop, if_neg (show (0:ℚ) < p by linarith).ne',
      if_neg (by linarith), if_pos (by linarith)]
  · intro p h1 h2
    rw [getRoutingWeightPop, if_neg (show (0:ℚ) < p by linarith).ne',
      if_neg (by linarith), if_neg (by linarith), if_pos (by linarith)]
  · intro p h1
    rw [getRoutingWeightPop, if_neg (show (0:ℚ) < p by linarith).ne',
      if_neg (by linarith), if_neg (by linarith), if_neg (by linarith)]
  · intro p q hp hpq
    by_cases hq : q = 0
    · have hp0 : p = 0 := le_antisymm (hq ▸ hpq) hp
      rw [hp0, hq]
    · by_cases hp0 : p = 0
      · rw [hp0]
        unfold getRoutingWeightPop
        rw [if_pos rfl, if_neg hq]
        split_ifs <;> norm_num
      · unfold getRoutingWeightPop
        rw [if_neg hp0, if_neg hq]
        split_ifs <;> linarith

/-- C3 witness: a breakpoint and a monotonicity instance. -/
theorem getRoutingWeight_step_witness :
    (3:ℚ) ≤ 4 ∧ (4:ℚ) ≤ 5 ∧ getRoutingWeightPop 4 = 5 ∧
      (0:ℚ) ≤ 4 ∧ (4:ℚ) ≤ 11 ∧
      getRoutingWeightPop 4 ≤ getRoutingWeightPop 11 :=
  ⟨by norm_num, by norm_num,
    getRoutingWeight_step.2.2.2.1 4 (by norm_num) (by norm_num),
    by norm_num, by norm_num,
    getRoutingWeight_step.2.2.2.2.2.2 4 11 (by norm_num) (by norm_num)⟩

/-- C4: after any sequence of grid mutations starting from the fresh grid,
the crowd-zone list is exactly one zone per cell with population at least
3, centered at the cell's quantized coordinates, with
`radius = max(0.001, population * 0.0003)` and the step-function weight of
the cell's population; cells below 3 contribute no zone; and `clearAll`
leaves both cells and zones empty and is idempotent. -/
theorem crowdZones_invariant :
    (∀ ops : List GridOp,
        (runGridOps emptyGrid ops).crowdZones =
          specZonesOfCells (runGridOps emptyGrid ops).populations) ∧
    (∀ g : DynamicPopulationGrid, clearAll g = emptyGrid) ∧
    (∀ g : DynamicPopulationGrid, clearAll (clearAll g) = clearAll g) := by
  refine ⟨?_, fun g => rfl, fun g => rfl⟩
  intro ops
  exact (gridInv_runGridOps ops emptyGrid gridInv_empty).2

/-- The ten-point route of the C5 scenario. -/
def demoRoute : List GeoPoint :=
  [(0, 0), (1, 0), (2, 0), (3, 0), (4, 0),
   (5, 0), (6, 0), (7, 0), (8, 0), (9, 0)]

/-- The weight-20 zone of the C5 scenario; it covers the first five points
of `demoRoute`. -/
def demoZone : Zone := ⟨(2, 0), 2, 10, 20⟩

/-- C5: `analyzeCrowdIntersections` computes `totalIntersection` as the
sum over zones of (points within radius of center) / (route length) *
weight, and `averageIntersection` as that total divided by the zone count;
an empty zone list yields total 0, average 0 and no worst zone; and one
weight-20 zone covering 5 points of a 10-point route yields total 10. -/
theorem analyzeCrowdIntersections_spec :
    (∀ (route : List GeoPoint) (zones : List Zone), route ≠ [] →
        (analyzeCrowdIntersections route zones).totalIntersection =
            specTotalIntersection route zones ∧
          (analyzeCrowdIntersections route zones).averageIntersection =
            specTotalIntersection route zones / (zones.length : ℚ)) ∧
    (∀ route : List GeoPoint,
        analyzeCrowdIntersections route [] = ⟨0, none, 0⟩) ∧
    (analyzeCrowdIntersections demoRoute [demoZone]).totalIntersection = 10 := by
  refine ⟨?_, ?_, ?_⟩
  · intro route zones _
    exact ⟨analyzeCrowdIntersections_total route zones,
      analyzeCrowdIntersections_avg route zones⟩
  · intro route
    simp [analyzeCrowdIntersections]
  · rw [analyzeCrowdIntersections_total]
    norm_num [specTotalIntersection, demoRoute, demoZone, countIntersections,
      pointWithin, List.filter]

/-- C5 witness: the formula conjunct applied to the scenario inputs. -/
theorem analyzeCrowdIntersections_spec_witness :
    demoRoute ≠ [] ∧
      (analyzeCrowdIntersections demoRoute [demoZone]).totalIntersection =
          specTotalIntersection demoRoute [demoZone] ∧
        (analyzeCrowdIntersections demoRoute [demoZone]).averageIntersection =
          specTotalIntersection demoRoute [demoZone] /
            (([demoZone] : List Zone).length : ℚ) :=
  ⟨by simp [demoRoute],
    analyzeCrowdIntersections_spec.1 demoRoute [demoZone] (by simp [demoRoute])⟩

/-- C6: with a nonempty candidate list the `bestRoute` reduce returns the
candidate with minimum `totalIntersection`, the earliest on ties (all
candidates before it are strictly worse, all after it no better); with an
empty candidate list `calculateRoute` yields the empty route and no
statistics rather than an exception. -/
theorem selectBest_spec :
    (∀ routes : List RouteCandidate, routes ≠ [] →
        ∃ l1 b l2, selectBest routes = some b ∧ routes = l1 ++ b :: l2 ∧
          (∀ c ∈ l1, b.crowdIntersections.totalIntersection <
            c.crowdIntersections.totalIntersection) ∧
          (∀ c ∈ l2, b.crowdIntersections.totalIntersection ≤
            c.crowdIntersections.totalIntersection)) ∧
    calculateRouteSelection [] = ([], none) := by
  constructor
  · intro routes hne
    cases routes with
    | nil => exact absurd rfl hne
    | cons r rs =>
        obtain ⟨l1, l2, hdec, hl1, hl2⟩ :=
          foldl_pickBy_spec
            (fun c : RouteCandidate => c.crowdIntersections.totalIntersection) rs r
        exact ⟨l1,
          rs.foldl (pickBy fun c : RouteCandidate =>
            c.crowdIntersections.totalIntersection) r, l2, rfl, hdec, hl1, hl2⟩
  · rfl

/-- A direct candidate used by the C6 witness. -/
def demoCand1 : RouteCandidate := ⟨[(0, 0)], .direct, ⟨3, none, 0⟩⟩

/-- An avoidance candidate with lower total used by the C6 witness. -/
def demoCand2 : RouteCandidate := ⟨[(1, 1)], .avoidance, ⟨1, none, 0⟩⟩

/-- C6 witness: the selection property at a concrete two-candidate list. -/
theorem selectBest_spec_witness :
    ([demoCand1, demoCand2] : List RouteCandidate) ≠ [] ∧
      ∃ l1 b l2, selectBest [demoCand1, demoCand2] = some b ∧
        [demoCand1, demoCand2] = l1 ++ b :: l2 ∧
        (∀ c ∈ l1, b.crowdIntersections.totalIntersection <
          c.crowdIntersections.totalIntersection) ∧
        (∀ c ∈ l2, b.crowdIntersections.totalIntersection ≤
          c.crowdIntersections.totalIntersection) :=
  ⟨by simp, selectBest_spec.1 [demoCand1, demoCand2] (by simp)⟩

/-- C7: with `start = end` (and a square root sending 0 to 0, as
`Math.sqrt` does) no waypoints are produced; otherwise exactly three
waypoints are produced, each the zone center offset along the unit
perpendicular of the start-to-end line by 0.002, 0.004 and 0.006 degrees
in that order (the direction has unit length and is perpendicular to the
direct vector); and the zone handed to the avoidance branch is the
first-encountered maximum-weight zone of the `reduce` in
`getAvoidanceRoute`. -/
theorem createAvoidanceWaypoints_spec :
    (∀ (sq : ℚ → ℚ) (start endp : GeoPoint) (cz : Zone),
        start = endp → sq 0 = 0 →
        createAvoidanceWaypoints sq start endp cz = []) ∧
    (∀ (sq : ℚ → ℚ) (start endp : GeoPoint) (cz : Zone),
        0 < sq (dirLenSq start endp) →
        sq (dirLenSq start endp) * sq (dirLenSq start endp) =
          dirLenSq start endp →
        createAvoidanceWaypoints sq start endp cz =
            [(cz.center.1 + (perpUnit sq start endp).1 * 0.002,
              cz.center.2 + (perpUnit sq start endp).2 * 0.002),
             (cz.center.1 + (perpUnit sq start endp).1 * 0.004,
              cz.center.2 + (perpUnit sq start endp).2 * 0.004),
             (cz.center.1 + (perpUnit sq start endp).1 * 0.006,
              cz.center.2 + (perpUnit sq start endp).2 * 0.006)] ∧
          (perpUnit sq start endp).1 * (perpUnit sq start endp).1 +
              (perpUnit sq start endp).2 * (perpUnit sq start endp).2 = 1 ∧
          (perpUnit sq start endp).1 * (endp.1 - start.1) +
              (perpUnit sq start endp).2 * (endp.2 - start.2) = 0) ∧
    (∀ zones : List Zone, zones ≠ [] →
        ∃ l1 w l2, worstZoneOf zones = some w ∧ zones = l1 ++ w :: l2 ∧
          (∀ z ∈ l1, z.weight < w.weight) ∧
          (∀ z ∈ l2, z.weight ≤ w.weight)) := by
  refine ⟨?_, ?_, ?_⟩
  · intro sq start endp cz hse h0
    subst hse
    simp [createAvoidanceWaypoints, h0]
  · intro sq start endp cz hpos hsq
    have hne : sq ((endp.1 - start.1) * (endp.1 - start.1) +
        (endp.2 - start.2) * (endp.2 - start.2)) ≠ 0 := by
      have := hpos.ne
      simpa [dirLenSq] using fun h => this h.symm
    refine ⟨?_, ?_, ?_⟩
    · simp only [createAvoidanceWaypoints, hne, if_false, List.map_cons,
        List.map_nil, perpUnit, dirLenSq]
    · have hsq1 : sq (dirLenSq start endp) * sq (dirLenSq start endp) =
          (endp.1 - start.1) * (endp.1 - start.1) +
            (endp.2 - start.2) * (endp.2 - start.2) := by
        rw [hsq, dirLenSq]
      have hne1 : sq (dirLenSq start endp) ≠ 0 := hpos.ne'
      simp only [perpUnit]
      field_simp
      linarith [hsq1]
    · simp only [perpUnit]
      field_simp
      ring
  · intro zones hne
    have hfun : (fun (worst current : Zone) =>
        if worst.weight < current.weight then current else worst) =
          pickBy (fun z => -z.weight) := by
      funext a b
      simp only [pickBy]
      by_cases h : a.weight < b.weight
      · rw [if_pos h, if_pos (by simpa using h)]
      · rw [if_neg h, if_neg (by simpa using h)]
    cases zones with
    | nil => exact absurd rfl hne
    | cons z zs =>
        obtain ⟨l1, l2, hdec, hl1, hl2⟩ :=
          foldl_pickBy_spec (fun z : Zone => -z.weight) zs z
        refine ⟨l1, zs.foldl (pickBy fun z : Zone => -z.weight) z, l2,
          ?_, hdec, ?_, ?_⟩
        · show worstZoneOf (z :: zs) = _
          simp only [worstZoneOf, hfun]
        · intro x hx
          have := hl1 x hx
          simpa using this
        · intro x hx
          have := hl2 x hx
          simpa using this

/-- A concrete square-root oracle for the C7 witness: correct at the two
values it is consulted on (0 and 25). -/
def demoSqrt : ℚ → ℚ := fun q => if q = 0 then 0 else 5

/-- The zone used as avoidance target in the C7 witness. -/
def demoZone2 : Zone := ⟨(1, 2), 1, 5, 10⟩

/-- C7 witness: both waypoint branches at concrete inputs (start-to-end
vector (3, 4), length 5) and the worst-zone scan on a two-zone list. -/
theorem createAvoidanceWaypoints_spec_witness :
    createAvoidanceWaypoints demoSqrt (0, 0) (0, 0) demoZone2 = [] ∧
      (createAvoidanceWaypoints demoSqrt (0, 0) (3, 4) demoZone2 =
          [(demoZone2.center.1 + (perpUnit demoSqrt (0, 0) (3, 4)).1 * 0.002,
            demoZone2.center.2 + (perpUnit demoSqrt (0, 0) (3, 4)).2 * 0.002),
           (demoZone2.center.1 + (perpUnit demoSqrt (0, 0) (3, 4)).1 * 0.004,
            demoZone2.center.2 + (perpUnit demoSqrt (0, 0) (3, 4)).2 * 0.004),
           (demoZone2.center.1 + (perpUnit demoSqrt (0, 0) (3, 4)).1 * 0.006,
            demoZone2.center.2 + (perpUnit demoSqrt (0, 0) (3, 4)).2 * 0.006)] ∧
        (perpUnit demoSqrt (0, 0) (3, 4)).1 * (perpUnit demoSqrt (0, 0) (3, 4)).1 +
            (perpUnit demoSqrt (0, 0) (3, 4)).2 * (perpUnit demoSqrt (0, 0) (3, 4)).2 = 1 ∧
        (perpUnit demoSqrt (0, 0) (3, 4)).1 * ((3 : ℚ) - 0) +
            (perpUnit demoSqrt (0, 0) (3, 4)).2 * ((4 : ℚ) - 0) = 0) ∧
      (∃ l1 w l2, worstZoneOf [demoZone2, demoZone] = some w ∧
        ([demoZone2, demoZone] : List Zone) = l1 ++ w :: l2 ∧
        (∀ z ∈ l1, z.weight < w.weight) ∧
        (∀ z ∈ l2, z.weight ≤ w.weight)) :=
  ⟨createAvoidanceWaypoints_spec.1 demoSqrt (0, 0) (0, 0) demoZone2 rfl
      (by norm_num [demoSqrt]),
    createAvoidanceWaypoints_spec.2.1 demoSqrt (0, 0) (3, 4) demoZone2
      (by norm_num [demoSqrt, dirLenSq]) (by norm_num [demoSqrt, dirLenSq]),
    createAvoidanceWaypoints_spec.2.2 [demoZone2, demoZone] (by simp)⟩

/-- C8: converting a latitude-first route to the provider's
longitude-first ordering and converting provider coordinates back are
mutually inverse. -/
theorem provider_roundtrip :
    (∀ route : List GeoPoint,
        fromProviderCoords (toProviderCoords route) = route) ∧
    (∀ coords : List GeoPoint,
        toProviderCoords (fromProviderCoords coords) = coords) := by
  constructor <;> intro l <;>
    simp [toProviderCoords, fromProviderCoords, List.map_map, Function.comp_def]

/-- C9: `isPointInCrowdZone` returns `none` exactly when no zone's center
is within its radius of the point, and when it returns a zone, that zone
matches and every zone before it in list order does not (first match, not
nearest match). -/
theorem isPointInCrowdZone_first_match :
    (∀ (p : GeoPoint) (zones : List Zone),
        (isPointInCrowdZone p zones = none ↔
          ∀ z ∈ zones, pointWithin p z.center z.radius = false)) ∧
    (∀ (p : GeoPoint) (zones : List Zone) (z : Zone),
        isPointInCrowdZone p zones = some z →
          pointWithin p z.center z.radius = true ∧
            ∃ l1 l2, zones = l1 ++ z :: l2 ∧
              ∀ z1 ∈ l1, pointWithin p z1.center z1.radius = false) := by
  constructor
  · intro p zones
    induction zones with
    | nil => simp [isPointInCrowdZone]
    | cons z zs ih =>
        by_cases h : pointWithin p z.center z.radius = true
        · simp [isPointInCrowdZone, h, List.forall_mem_cons]
        · have h1 : pointWithin p z.center z.radius = false := by simpa using h
          simp [isPointInCrowdZone, h1, ih, List.forall_mem_cons]
  · intro p zones
    induction zones with
    | nil => intro z h; simp [isPointInCrowdZone] at h
    | cons z0 zs ih =>
        intro z h
        by_cases h0 : pointWithin p z0.center z0.radius = true
        · rw [isPointInCrowdZone, if_pos h0] at h
          have hz : z0 = z := by simpa using h
          subst hz
          exact ⟨h0, [], zs, rfl, by simp⟩
        · rw [isPointInCrowdZone, if_neg h0] at h
          obtain ⟨hz, l1, l2, hdec, hl1⟩ := ih z h
          refine ⟨hz, z0 :: l1, l2, by rw [List.cons_append, hdec], ?_⟩
          intro z1 hz1
          rcases List.mem_cons.1 hz1 with hz1 | hz1
          · subst hz1
            simpa using h0
          · exact hl1 z1 hz1

/-- A zone far from the origin: its center is not within its radius of
`(0, 0)`. -/
def demoFarZone : Zone := ⟨(10, 10), 1, 3, 5⟩

/-- A zone containing the origin. -/
def demoNearZone : Zone := ⟨(0, 0), 1, 3, 5⟩

/-- C9 witness: on a two-zone list whose first zone does not contain the
point, the scan returns the second zone together with the first-match
decomposition. -/
theorem isPointInCrowdZone_first_match_witness :
    isPointInCrowdZone (0, 0) [demoFarZone, demoNearZone] = some demoNearZone ∧
      (pointWithin (0, 0) demoNearZone.center demoNearZone.radius = true ∧
        ∃ l1 l2, ([demoFarZone, demoNearZone] : List Zone) = l1 ++ demoNearZone :: l2 ∧
          ∀ z1 ∈ l1, pointWithin (0, 0) z1.center z1.radius = false) := by
  have heval : isPointInCrowdZone (0, 0) [demoFarZone, demoNearZone] =
      some demoNearZone := by
    norm_num [isPointInCrowdZone, pointWithin, demoFarZone, demoNearZone]
  exact ⟨heval,
    isPointInCrowdZone_first_match.2 (0, 0) [demoFarZone, demoNearZone]
      demoNearZone heval⟩

/-- C10: `worstZone` is `none` exactly when the zone list is empty; and on
a nonempty zone list where no route point lies inside any zone (nonempty
route), `worstZone` is the first zone of the list with intersection ratio
0 and point count 0. -/
theorem worstZone_nonempty_spec :
    (∀ (route : List GeoPoint) (zones : List Zone),
        ((analyzeCrowdIntersections route zones).worstZone = none ↔
          zones = [])) ∧
    (∀ (route : List GeoPoint) (z0 : Zone) (rest : List Zone), route ≠ [] →
        (∀ z ∈ z0 :: rest, ∀ p ∈ route,
          pointWithin p z.center z.radius = false) →
        (analyzeCrowdIntersections route (z0 :: rest)).worstZone =
          some ⟨z0, 0, 0⟩) := by
  constructor
  · exact fun route zones =>
      analyzeCrowdIntersections_worst_none_iff route zones
  · intro route z0 rest _ hno
    have hcnt : ∀ z ∈ z0 :: rest, countIntersections route z = 0 := by
      intro z hz
      rw [countIntersections_eq_zero_iff]
      exact fun p hp => hno z hz p hp
    show ((z0 :: rest).foldl (analyzeStep route) (0, none)).2 = some ⟨z0, 0, 0⟩
    rw [List.foldl_cons]
    have hc0 : countIntersections route z0 = 0 :=
      hcnt z0 (List.mem_cons_self z0 rest)
    have hstep : analyzeStep route (0, none) z0 = (0, some ⟨z0, 0, 0⟩) := by
      simp [analyzeStep, hc0]
    rw [hstep]
    exact foldl_analyzeStep_nomatch route rest 0 ⟨z0, 0, 0⟩ rfl
      fun z hz => hcnt z (List.mem_cons_of_mem z0 hz)

/-- C10 witness: a one-point route with no point inside the single far
zone still reports that zone as worst, with ratio 0 and count 0. -/
theorem worstZone_nonempty_spec_witness :
    ([((0 : ℚ), (0 : ℚ))] : List GeoPoint) ≠ [] ∧
      (analyzeCrowdIntersections [(0, 0)] [demoFarZone]).worstZone =
        some ⟨demoFarZone, 0, 0⟩ := by
  refine ⟨by simp, ?_⟩
  exact worstZone_nonempty_spec.2 [(0, 0)] demoFarZone [] (by simp)
    (by norm_num [pointWithin, demoFarZone])
